import Mathlib

/-!
Verification of the virtual-bus repository (a virtual CAN bus simulator).

This file gives a shallow embedding of the core data model and operations of
the repository and proves properties about them:

* src/virtual_bus/core/frame.py      : CANFrame and its construction checks
* src/virtual_bus/recorder/recorder.py : RecordedFrame, TrafficRecorder, save/load
* src/virtual_bus/recorder/player.py   : TrafficPlayer.play_instant
* src/virtual_bus/faults/injector.py  : FaultRule, FaultInjector.process_frame
* src/virtual_bus/core/bus.py         : VirtualCANBus transmit/start/stop/dispatch
* src/virtual_bus/observer/observer.py : BusObserver ring buffer and statistics
* src/virtual_bus/analyzer/analyzer.py : TimingAnalyzer detectors and clear

Python floats are modelled as rationals, Python byte values as naturals,
Python str hex payloads as lists of characters, and Python dict values as
functions with an Option or default codomain.  Fallible constructors
(ValueError raising code) return Except.  Randomness (the random module) is
modelled by an explicit oracle of drawn values threaded through the code.
-/

deriving instance DecidableEq for Except

attribute [local semireducible] Rat.add Rat.sub Rat.mul Rat.inv

namespace VirtualBus

/-! ## Core frame model (src/virtual_bus/core/frame.py) -/

/-- Embedding of the CANFrame dataclass fields.  The timestamp is a rational
(Python float, seconds); the payload is a list of byte values.  The
construction-time validation of the Python class (__post_init__) lives in
CANFrame.mk_checked below, so a CANFrame value here corresponds to a raw
(not-necessarily-validated) field record. -/
structure CANFrame where
  arbitration_id : Int
  data : List Nat := []
  timestamp : ℚ := 0
  is_extended_id : Bool := false
  is_remote_frame : Bool := false
  dlc : Option Int := none
deriving DecidableEq, Repr

/-- Embedding of CANFrame.__post_init__: data longer than 8 bytes is rejected,
then the arbitration id is range checked against the flag (0..0x1FFFFFFF when
extended, 0..0x7FF otherwise).  No check relates dlc to the payload length. -/
def CANFrame.mk_checked (arbitration_id : Int) (data : List Nat) (timestamp : ℚ)
    (is_extended_id : Bool) (is_remote_frame : Bool) (dlc : Option Int) :
    Except String CANFrame :=
  if data.length > 8 then
    Except.error "CAN frame data cannot exceed 8 bytes"
  else if is_extended_id then
    if 0 ≤ arbitration_id ∧ arbitration_id ≤ 0x1FFFFFFF then
      Except.ok ⟨arbitration_id, data, timestamp, is_extended_id, is_remote_frame, dlc⟩
    else
      Except.error "Extended arbitration ID must be 0-0x1FFFFFFF"
  else
    if 0 ≤ arbitration_id ∧ arbitration_id ≤ 0x7FF then
      Except.ok ⟨arbitration_id, data, timestamp, is_extended_id, is_remote_frame, dlc⟩
    else
      Except.error "Standard arbitration ID must be 0-0x7FF"

/-- Embedding of the CANFrame.effective_dlc property. -/
def CANFrame.effective_dlc (f : CANFrame) : Int :=
  match f.dlc with
  | some d => d
  | none => (f.data.length : Int)

/-- A frame value satisfying the constraints that CANFrame.mk_checked enforces,
together with the bytes type guarantee of Python (each byte is below 256). -/
def CANFrame.valid (f : CANFrame) : Bool :=
  decide (f.data.length ≤ 8) &&
  (if f.is_extended_id then
    decide (0 ≤ f.arbitration_id ∧ f.arbitration_id ≤ 0x1FFFFFFF)
  else
    decide (0 ≤ f.arbitration_id ∧ f.arbitration_id ≤ 0x7FF)) &&
  f.data.all (fun b => b < 256)

theorem CANFrame.mk_checked_of_valid (f : CANFrame) (h : f.valid = true) :
    CANFrame.mk_checked f.arbitration_id f.data f.timestamp f.is_extended_id
      f.is_remote_frame f.dlc = Except.ok f := by
  obtain ⟨i, d, t, e, r, dl⟩ := f
  cases e <;> simp only [CANFrame.valid, Bool.and_eq_true, decide_eq_true_eq,
      if_true, if_false, Bool.false_eq_true, Bool.true_eq_false, ite_true,
      ite_false] at h <;>
    obtain ⟨⟨h1, h2⟩, h3⟩ := h <;>
    simp only [CANFrame.mk_checked, ite_true, ite_false] <;>
    (rw [if_neg (by omega), if_pos h2]; try simp)

/-! ## Hex encoding (Python bytes.hex and bytes.fromhex, used by the recorder) -/

/-- Lower-case hex digit for a value below 16, as produced by Python bytes.hex. -/
def hexDigitChar (n : Nat) : Char :=
  if n < 10 then Char.ofNat (48 + n) else Char.ofNat (87 + n)

/-- Value of one hex digit accepted by Python bytes.fromhex: 0-9, a-f or A-F. -/
def hexDigitVal (c : Char) : Option Nat :=
  if 48 ≤ c.toNat ∧ c.toNat ≤ 57 then some (c.toNat - 48)
  else if 97 ≤ c.toNat ∧ c.toNat ≤ 102 then some (c.toNat - 87)
  else if 65 ≤ c.toNat ∧ c.toNat ≤ 70 then some (c.toNat - 55)
  else none

/-- Embedding of Python bytes.hex(): two lower-case hex digits per byte. -/
def bytesToHex : List Nat → List Char
  | [] => []
  | b :: bs => hexDigitChar (b / 16) :: hexDigitChar (b % 16) :: bytesToHex bs

/-- Embedding of Python bytes.fromhex(): parses pairs of hex digits, failing on
an odd-length string or a non-hex character. -/
def hexToBytes : List Char → Option (List Nat)
  | [] => some []
  | [_] => none
  | c1 :: c2 :: rest =>
    match hexDigitVal c1, hexDigitVal c2, hexToBytes rest with
    | some hi, some lo, some bs => some ((16 * hi + lo) :: bs)
    | _, _, _ => none

theorem hexDigitVal_hexDigitChar (n : Nat) (h : n < 16) :
    hexDigitVal (hexDigitChar n) = some n := by
  interval_cases n <;> rfl

theorem hexToBytes_bytesToHex (data : List Nat) (h : ∀ b ∈ data, b < 256) :
    hexToBytes (bytesToHex data) = some data := by
  induction data with
  | nil => rfl
  | cons b bs ih =>
    have hb : b < 256 := h b (by simp)
    have h1 : b / 16 < 16 := by omega
    have h2 : b % 16 < 16 := Nat.mod_lt _ (by omega)
    have h4 : 16 * (b / 16) + b % 16 = b := by omega
    simp only [bytesToHex, hexToBytes, hexDigitVal_hexDigitChar _ h1,
      hexDigitVal_hexDigitChar _ h2, ih (fun x hx => h x (List.mem_cons_of_mem _ hx)), h4]

/-! ## Recorder (src/virtual_bus/recorder/recorder.py) -/

/-- Embedding of the RecordedFrame dataclass.  The hex payload string is a list
of characters. -/
structure RecordedFrame where
  arbitration_id : Int
  data_hex : List Char
  timestamp : ℚ
  relative_time : ℚ
  is_extended_id : Bool := false
  dlc : Int := 0
deriving DecidableEq, Repr

/-- Embedding of RecordedFrame.to_can_frame: decode the hex payload and build a
CANFrame; a bytes.fromhex failure or a CANFrame validation failure raises. -/
def RecordedFrame.to_can_frame (rf : RecordedFrame) : Except String CANFrame :=
  match hexToBytes rf.data_hex with
  | none => Except.error "bytes.fromhex failed"
  | some bs =>
    CANFrame.mk_checked rf.arbitration_id bs rf.timestamp rf.is_extended_id
      false (some rf.dlc)

/-- Embedding of RecordedFrame.from_can_frame. -/
def RecordedFrame.from_can_frame (f : CANFrame) (start_time : ℚ) : RecordedFrame :=
  { arbitration_id := f.arbitration_id
    data_hex := bytesToHex f.data
    timestamp := f.timestamp
    relative_time := f.timestamp - start_time
    is_extended_id := f.is_extended_id
    dlc := f.effective_dlc }

/-- Embedding of the RecordingMetadata dataclass. -/
structure RecordingMetadata where
  start_time : ℚ
  end_time : Option ℚ := none
  frame_count : Nat := 0
  unique_ids : List Int := []
  description : String := ""
deriving DecidableEq, Repr

/-- State of a TrafficRecorder: its buffered frames, metadata and recording
flag.  The streaming file handle is not modelled (no claim touches it). -/
structure TrafficRecorder where
  frames : List RecordedFrame := []
  metadata : RecordingMetadata := { start_time := 0 }
  is_recording : Bool := false
deriving Repr

/-- Embedding of TrafficRecorder.start at wall-clock time now: starting while
already recording is a no-op, otherwise the buffer is cleared and fresh
metadata is installed. -/
def TrafficRecorder.start (r : TrafficRecorder) (now : ℚ) (description : String) :
    TrafficRecorder :=
  if r.is_recording then r
  else
    { frames := []
      metadata := { start_time := now, description := description }
      is_recording := true }

/-- Embedding of TrafficRecorder.record_frame (the manual recording entry
point; TrafficRecorder._on_frame appends the same RecordedFrame). -/
def TrafficRecorder.record_frame (r : TrafficRecorder) (f : CANFrame) :
    TrafficRecorder :=
  if r.is_recording then
    { r with
      frames := r.frames ++ [RecordedFrame.from_can_frame f r.metadata.start_time] }
  else r

/-- The persisted JSON document written by TrafficRecorder.save: a dict with
the metadata and the frame list, each serialized field by field.  JSON keeps
int, bool and string fields exact, so the embedding treats the document as the
structural pair of both. -/
structure SavedRecording where
  metadata : RecordingMetadata
  frames : List RecordedFrame
deriving DecidableEq, Repr

/-- Embedding of TrafficRecorder.save. -/
def TrafficRecorder.save (r : TrafficRecorder) : SavedRecording :=
  { metadata := r.metadata, frames := r.frames }

/-- Embedding of load_recording: rebuild the metadata and the RecordedFrame
list from the saved document. -/
def load_recording (s : SavedRecording) : RecordingMetadata × List RecordedFrame :=
  (s.metadata, s.frames)

/-! ## Player (src/virtual_bus/recorder/player.py) -/

/-- Embedding of TrafficPlayer.play_instant over the loaded frame list: every
frame is converted back to a CANFrame and transmitted on the bus back to back,
and the number of frames played is returned.  The first component collects the
frames handed to bus.transmit, in transmission order; an exception raised by
to_can_frame propagates (callback exceptions are discarded by the source and
do not affect the result). -/
def TrafficPlayer.play_instant : List RecordedFrame → Except String (List CANFrame × Nat)
  | [] => Except.ok ([], 0)
  | rf :: rest =>
    match rf.to_can_frame with
    | Except.error e => Except.error e
    | Except.ok f =>
      match TrafficPlayer.play_instant rest with
      | Except.error e => Except.error e
      | Except.ok (fs, n) => Except.ok (f :: fs, n + 1)

theorem CANFrame.mk_checked_eq_ok (i : Int) (d : List Nat) (t : ℚ) (e r : Bool)
    (dl : Option Int) (hlen : d.length ≤ 8)
    (hid : if e then 0 ≤ i ∧ i ≤ 0x1FFFFFFF else 0 ≤ i ∧ i ≤ 0x7FF) :
    CANFrame.mk_checked i d t e r dl = Except.ok ⟨i, d, t, e, r, dl⟩ := by
  unfold CANFrame.mk_checked
  rw [if_neg (by omega)]
  cases e
  · have hid2 : 0 ≤ i ∧ i ≤ 0x7FF := by simpa using hid
    simp [hid2.1, hid2.2]
  · have hid2 : 0 ≤ i ∧ i ≤ 0x1FFFFFFF := by simpa using hid
    simp [hid2.1, hid2.2]

theorem to_can_frame_from_can_frame (f : CANFrame) (st : ℚ) (h : f.valid = true) :
    (RecordedFrame.from_can_frame f st).to_can_frame =
      Except.ok ⟨f.arbitration_id, f.data, f.timestamp, f.is_extended_id, false,
        some f.effective_dlc⟩ := by
  simp only [CANFrame.valid, Bool.and_eq_true, decide_eq_true_eq] at h
  obtain ⟨⟨h1, h2⟩, h3⟩ := h
  have hbytes : ∀ b ∈ f.data, b < 256 := by
    intro b hb
    simpa using List.all_eq_true.mp h3 b hb
  have hid : if f.is_extended_id then 0 ≤ f.arbitration_id ∧ f.arbitration_id ≤ 0x1FFFFFFF
      else 0 ≤ f.arbitration_id ∧ f.arbitration_id ≤ 0x7FF := by
    cases he : f.is_extended_id <;> simp [he] at h2 ⊢ <;> omega
  simp only [RecordedFrame.to_can_frame, RecordedFrame.from_can_frame,
    hexToBytes_bytesToHex f.data hbytes]
  exact CANFrame.mk_checked_eq_ok _ _ _ _ _ _ h1 hid

theorem record_frame_foldl (frames : List CANFrame) (r : TrafficRecorder)
    (h : r.is_recording = true) :
    frames.foldl TrafficRecorder.record_frame r =
      { r with frames := r.frames ++
          frames.map (fun f => RecordedFrame.from_can_frame f r.metadata.start_time) } := by
  induction frames generalizing r with
  | nil => simp
  | cons f fs ih =>
    simp only [List.foldl_cons, TrafficRecorder.record_frame, h, if_true, List.map_cons]
    rw [ih _ (by simp [h])]
    simp

theorem play_instant_map_from_can_frame (frames : List CANFrame) (st : ℚ)
    (hv : ∀ f ∈ frames, f.valid = true) :
    TrafficPlayer.play_instant
        (frames.map (fun f => RecordedFrame.from_can_frame f st)) =
      Except.ok
        (frames.map (fun f => ⟨f.arbitration_id, f.data, f.timestamp,
          f.is_extended_id, false, some f.effective_dlc⟩), frames.length) := by
  induction frames with
  | nil => rfl
  | cons f fs ih =>
    simp only [List.map_cons, TrafficPlayer.play_instant,
      to_can_frame_from_can_frame f st (hv f (by simp)),
      ih (fun x hx => hv x (List.mem_cons_of_mem _ hx)), List.length_cons]

/-- C1: for every recording of valid CAN frames, the round trip through
TrafficRecorder.save, load_recording and TrafficPlayer.play_instant
re-transmits frames whose (arbitration id, payload) sequence equals the
recorded sequence exactly and in order, and play_instant returns the number of
frames in the recording. -/
theorem C1_record_save_load_play_instant_roundtrip
    (frames : List CANFrame) (start_time : ℚ) (description : String)
    (hv : ∀ f ∈ frames, f.valid = true) :
    ∃ out,
      TrafficPlayer.play_instant
          (load_recording
            (TrafficRecorder.save
              (frames.foldl TrafficRecorder.record_frame
                (TrafficRecorder.start {} start_time description)))).2
        = Except.ok (out, frames.length) ∧
      out.map (fun f => (f.arbitration_id, f.data)) =
        frames.map (fun f => (f.arbitration_id, f.data)) := by
  have hstart : (TrafficRecorder.start {} start_time description).is_recording = true := by
    rfl
  rw [record_frame_foldl frames _ hstart]
  refine ⟨frames.map (fun f => ⟨f.arbitration_id, f.data, f.timestamp,
    f.is_extended_id, false, some f.effective_dlc⟩), ?_, ?_⟩
  · simpa [TrafficRecorder.save, load_recording, TrafficRecorder.start] using
      play_instant_map_from_can_frame frames start_time hv
  · simp

/-- A concrete recording of 10 frames over the two arbitration ids 0x100 and
0x200, used to witness the round-trip theorem. -/
def demoFrames : List CANFrame :=
  (List.range 10).map (fun k =>
    { arbitration_id := if k % 2 = 0 then 0x100 else 0x200
      data := [k, 255 - k]
      timestamp := (k : ℚ) / 100 })

/-- C1 witness: the round trip holds for a concrete recording of 10 frames
spanning 2 distinct arbitration ids. -/
theorem C1_roundtrip_witness :
    (10 ≤ demoFrames.length ∧
      2 ≤ ((demoFrames.map (fun f => f.arbitration_id)).dedup).length ∧
      ∀ f ∈ demoFrames, f.valid = true) ∧
    ∃ out,
      TrafficPlayer.play_instant
          (load_recording
            (TrafficRecorder.save
              (demoFrames.foldl TrafficRecorder.record_frame
                (TrafficRecorder.start {} 0 "demo")))).2
        = Except.ok (out, demoFrames.length) ∧
      out.map (fun f => (f.arbitration_id, f.data)) =
        demoFrames.map (fun f => (f.arbitration_id, f.data)) :=
  ⟨⟨by decide, by decide, by decide⟩,
    C1_record_save_load_play_instant_roundtrip demoFrames 0 "demo" (by decide)⟩

/-- C2 counterexample: CANFrame construction accepts a supplied dlc of 4 on a
2-byte payload, refuting the part of the claim that says construction raises
whenever the supplied dlc differs from the payload length
(CANFrame.__post_init__ never compares dlc with the payload length; the test
test_frame_with_explicit_dlc pins this behaviour down). -/
theorem C2_counterexample_dlc_mismatch_accepted :
    CANFrame.mk_checked 0x100 [1, 2] 0 false false (some 4) =
      Except.ok ⟨0x100, [1, 2], 0, false, false, some 4⟩ ∧
    (4 : Int) ≠ (([1, 2] : List Nat).length : Int) := by
  exact ⟨rfl, by decide⟩

/-- C2 (amended): construction succeeds exactly when the payload is at most 8
bytes and the id is in range for the extended flag — for every dlc value,
supplied or omitted; when the dlc is omitted the effective dlc equals the
payload length.  A supplied dlc is stored without being validated against the
payload length. -/
theorem C2_frame_construction_validation (i : Int) (d : List Nat) (t : ℚ)
    (e r : Bool) (dl : Option Int) :
    ((CANFrame.mk_checked i d t e r dl).isOk = true ↔
      (d.length ≤ 8 ∧
        if e then 0 ≤ i ∧ i ≤ 0x1FFFFFFF else 0 ≤ i ∧ i ≤ 0x7FF)) ∧
    (∀ f, CANFrame.mk_checked i d t e r none = Except.ok f →
      f.effective_dlc = (d.length : Int)) := by
  constructor
  · constructor
    · intro hok
      unfold CANFrame.mk_checked at hok
      split_ifs at hok with h1 h2 h3 <;>
        simp_all [Except.isOk, Except.toBool]
    · intro h
      rw [CANFrame.mk_checked_eq_ok i d t e r dl h.1 (by
        cases e <;> simpa using h.2)]
      rfl
  · intro f hf
    unfold CANFrame.mk_checked at hf
    split_ifs at hf <;> simp_all [CANFrame.effective_dlc] <;> subst hf <;> rfl

/-- C2 witness: a concrete in-range standard frame with dlc omitted is
accepted. -/
theorem C2_frame_construction_witness :
    (CANFrame.mk_checked 0x7FF [0, 1, 2, 3, 4, 5, 6, 7] 0 false false none).isOk
      = true :=
  (C2_frame_construction_validation 0x7FF [0, 1, 2, 3, 4, 5, 6, 7] 0
    false false none).1.mpr (by decide)

/-! ## Fault injection (src/virtual_bus/faults/injector.py) -/

/-- Embedding of the FaultType enum. -/
inductive FaultType
  | drop
  | delay
  | corrupt
  | duplicate
  | burst
  | reorder
deriving DecidableEq, Repr

/-- Embedding of the FaultRule dataclass.  The optional target-id set is
modelled as an optional list. -/
structure FaultRule where
  fault_type : FaultType
  probability : ℚ := 1 / 10
  target_ids : Option (List Int) := none
  delay_ms : ℚ := 0
  delay_jitter_ms : ℚ := 0
  burst_count : Nat := 5
  burst_interval_ms : ℚ := 1
  enabled : Bool := true
deriving DecidableEq, Repr

/-- Embedding of FaultRule.applies_to. -/
def FaultRule.applies_to (rule : FaultRule) (arbitration_id : Int) : Bool :=
  match rule.target_ids with
  | none => true
  | some ids => ids.contains arbitration_id

/-- Embedding of the FaultStatistics dataclass. -/
structure FaultStatistics where
  frames_processed : Nat := 0
  frames_dropped : Nat := 0
  frames_delayed : Nat := 0
  frames_corrupted : Nat := 0
  frames_duplicated : Nat := 0
  bursts_injected : Nat := 0
deriving DecidableEq, Repr

/-- Oracle for the random module, threaded explicitly: floats is the stream of
uniform draws consumed by random.random and random.uniform, ints the stream of
draws consumed by random.randint.  An exhausted stream yields 0 (respectively
the lower bound). -/
structure RandomOracle where
  floats : List ℚ := []
  ints : List Nat := []
deriving DecidableEq, Repr

/-- Next uniform draw of the oracle (random.random / random.uniform). -/
def RandomOracle.nextFloat (g : RandomOracle) : ℚ × RandomOracle :=
  match g.floats with
  | [] => (0, g)
  | x :: xs => (x, { g with floats := xs })

/-- Embedding of random.randint(lo, hi): the next integer draw reduced into
the inclusive range, so every in-range value is reachable. -/
def RandomOracle.nextInt (g : RandomOracle) (lo hi : Nat) : Nat × RandomOracle :=
  match g.ints with
  | [] => (lo, g)
  | k :: ks => (lo + k % (hi + 1 - lo), { g with ints := ks })

/-- Embedding of FaultInjector._corrupt_data: empty payloads are returned
unchanged; otherwise one uniformly drawn bit of one uniformly drawn byte is
flipped (data_list[byte_idx] ^= 1 << bit_idx). -/
def FaultInjector.corrupt_data (data : List Nat) (g : RandomOracle) :
    List Nat × RandomOracle :=
  if data.length = 0 then (data, g)
  else
    let (byte_idx, g1) := g.nextInt 0 (data.length - 1)
    let (bit_idx, g2) := g1.nextInt 0 7
    (data.set byte_idx ((data.getD byte_idx 0) ^^^ (1 <<< bit_idx)), g2)

/-- Embedding of the rule loop inside FaultInjector.process_frame, iterating
over the remaining rules with the in-flight result list: a disabled or
non-matching rule is skipped without a draw; otherwise one uniform draw is
compared against the probability.  Drop clears the result and returns
immediately; Delay consumes the jitter draw when jitter is positive and leaves
the frame list unchanged (its suspension is timing only); Corrupt replaces the
result with one corrupted copy of the input frame; Duplicate replaces the
result with two copies of the input frame; Burst replaces the result with
burst_count fresh copies stamped with the wall-clock time now; Reorder has no
branch in the source and falls through. -/
def processRules (frame : CANFrame) (now : ℚ) :
    List FaultRule → List CANFrame → FaultStatistics → RandomOracle →
      List CANFrame × FaultStatistics × RandomOracle
  | [], result, stats, g => (result, stats, g)
  | rule :: rest, result, stats, g =>
    if rule.enabled = false then
      processRules frame now rest result stats g
    else if rule.applies_to frame.arbitration_id = false then
      processRules frame now rest result stats g
    else
      match g.nextFloat with
      | (draw, g1) =>
        if draw > rule.probability then
          processRules frame now rest result stats g1
        else
          match rule.fault_type with
          | FaultType.drop =>
            ([], { stats with frames_dropped := stats.frames_dropped + 1 }, g1)
          | FaultType.delay =>
            let g2 := if rule.delay_jitter_ms > 0 then (g1.nextFloat).2 else g1
            processRules frame now rest result
              { stats with frames_delayed := stats.frames_delayed + 1 } g2
          | FaultType.corrupt =>
            match FaultInjector.corrupt_data frame.data g1 with
            | (corrupted_data, g2) =>
              processRules frame now rest
                [⟨frame.arbitration_id, corrupted_data, frame.timestamp,
                  frame.is_extended_id, false, none⟩]
                { stats with frames_corrupted := stats.frames_corrupted + 1 } g2
          | FaultType.duplicate =>
            processRules frame now rest [frame, frame]
              { stats with frames_duplicated := stats.frames_duplicated + 1 } g1
          | FaultType.burst =>
            processRules frame now rest
              (List.replicate rule.burst_count
                ⟨frame.arbitration_id, frame.data, now,
                  frame.is_extended_id, false, none⟩)
              { stats with bursts_injected := stats.bursts_injected + 1 } g1
          | FaultType.reorder =>
            processRules frame now rest result stats g1

/-- State of a FaultInjector: its registered rules, statistics and the global
enabled flag. -/
structure FaultInjector where
  rules : List FaultRule := []
  statistics : FaultStatistics := {}
  enabled : Bool := true
deriving Repr

/-- Embedding of FaultInjector.process_frame: the processed counter always
increments; with injection disabled the frame passes through unchanged;
otherwise every rule is evaluated in registration order against the in-flight
result list, which starts as the singleton input frame. -/
def FaultInjector.process_frame (inj : FaultInjector) (frame : CANFrame)
    (now : ℚ) (g : RandomOracle) :
    List CANFrame × FaultStatistics × RandomOracle :=
  let stats0 := { inj.statistics with
    frames_processed := inj.statistics.frames_processed + 1 }
  if inj.enabled = false then ([frame], stats0, g)
  else processRules frame now inj.rules [frame] stats0 g

/-- Number of bit positions 0-7 at which two byte values differ. -/
def byteBitsDiff (a b : Nat) : Nat :=
  ((List.range 8).filter (fun j => a.testBit j != b.testBit j)).length

/-- Total number of differing bits between two payloads, position by
position. -/
def bitsDiffTotal (as bs : List Nat) : Nat :=
  (List.zipWith byteBitsDiff as bs).sum

theorem byteBitsDiff_self (a : Nat) : byteBitsDiff a a = 0 := by
  simp [byteBitsDiff]

theorem bitsDiffTotal_cons (a b : Nat) (as bs : List Nat) :
    bitsDiffTotal (a :: as) (b :: bs) = byteBitsDiff a b + bitsDiffTotal as bs := rfl

theorem byteBitsDiff_xor_shift (b i : Nat) (hi : i < 8) :
    byteBitsDiff b (b ^^^ (1 <<< i)) = 1 := by
  unfold byteBitsDiff
  have hfilter : ((List.range 8).filter
      (fun j => b.testBit j != (b ^^^ (1 <<< i)).testBit j)) =
      ((List.range 8).filter (fun j => j == i)) := by
    apply List.filter_congr
    intro j hj
    have hshift : (1 <<< i) = 2 ^ i := by simp [Nat.shiftLeft_eq]
    rw [hshift, Nat.testBit_xor, Nat.testBit_two_pow]
    cases hb : b.testBit j <;> by_cases hij : i = j
    · subst hij
      simp
    · have hji : ¬ j = i := fun hh => hij hh.symm
      simp [hij, hji]
    · subst hij
      simp
    · have hji : ¬ j = i := fun hh => hij hh.symm
      simp [hij, hji]
  rw [hfilter]
  interval_cases i <;> decide

theorem bitsDiffTotal_self (as : List Nat) : bitsDiffTotal as as = 0 := by
  induction as <;> simp_all [bitsDiffTotal, byteBitsDiff_self]

theorem bitsDiffTotal_set (as : List Nat) (k i : Nat) (hk : k < as.length)
    (hi : i < 8) :
    bitsDiffTotal as (as.set k ((as.getD k 0) ^^^ (1 <<< i))) = 1 := by
  induction as generalizing k with
  | nil => simp at hk
  | cons a tail ih =>
    cases k with
    | zero =>
      rw [List.getD_cons_zero, List.set_cons_zero, bitsDiffTotal_cons,
        byteBitsDiff_xor_shift a i hi, bitsDiffTotal_self]
    | succ k =>
      have hk2 : k < tail.length := by simpa using hk
      rw [List.getD_cons_succ, List.set_cons_succ, bitsDiffTotal_cons,
        byteBitsDiff_self, ih k hk2]

theorem nextInt_bounds (g : RandomOracle) (lo hi : Nat) (h : lo ≤ hi) :
    lo ≤ (g.nextInt lo hi).1 ∧ (g.nextInt lo hi).1 ≤ hi := by
  unfold RandomOracle.nextInt
  cases g.ints with
  | nil => simpa using h
  | cons k ks =>
    simp only
    have h2 : k % (hi + 1 - lo) < hi + 1 - lo := Nat.mod_lt _ (by omega)
    omega

theorem corrupt_data_one_bit (data : List Nat) (g : RandomOracle)
    (hne : data ≠ []) :
    ∃ cd g2, FaultInjector.corrupt_data data g = (cd, g2) ∧
      cd.length = data.length ∧ bitsDiffTotal data cd = 1 := by
  have hlen : 0 < data.length := List.length_pos.mpr hne
  rcases hbi : g.nextInt 0 (data.length - 1) with ⟨bi, g1⟩
  rcases hti : g1.nextInt 0 7 with ⟨ti, g2⟩
  have hb : bi < data.length := by
    have := (nextInt_bounds g 0 (data.length - 1) (by omega)).2
    rw [hbi] at this
    simp at this
    omega
  have ht : ti < 8 := by
    have := (nextInt_bounds g1 0 7 (by omega)).2
    rw [hti] at this
    simp at this
    omega
  refine ⟨data.set bi ((data.getD bi 0) ^^^ (1 <<< ti)), g2, ?_, ?_, ?_⟩
  · unfold FaultInjector.corrupt_data
    rw [if_neg (by omega), hbi]
    dsimp only
    rw [hti]
  · simp
  · exact bitsDiffTotal_set data bi ti hb ht

/-- A concrete frame with a one-byte payload. -/
def f0 : CANFrame := { arbitration_id := 0x100, data := [0] }

/-- A concrete frame with empty payload. -/
def fEmpty : CANFrame := { arbitration_id := 0x100, data := [] }

/-- A concrete frame standing for an already-mutated in-flight result. -/
def fAltered : CANFrame := { arbitration_id := 0x100, data := [1] }

/-- A Corrupt rule that always triggers. -/
def corruptRule : FaultRule := { fault_type := FaultType.corrupt, probability := 1 }

/-- A Duplicate rule that always triggers. -/
def duplicateRule : FaultRule :=
  { fault_type := FaultType.duplicate, probability := 1 }

/-- C3 counterexample: with a Corrupt rule followed by a Duplicate rule, the
in-flight result after the Corrupt rule is one frame with payload [1], yet the
final result after the Duplicate rule is two copies of the original input
(payloads [0], [0]) rather than the doubled in-flight list (payloads [1], [1]):
the DUPLICATE branch writes result_frames = [frame, frame] from the original
input frame, discarding the in-flight result. -/
theorem C3_counterexample_duplicate_discards_in_flight_result :
    ((FaultInjector.process_frame { rules := [corruptRule] } f0 0
        ⟨[0, 0], [0, 0]⟩).1.map (fun f => f.data) = [[1]]) ∧
    ((FaultInjector.process_frame { rules := [corruptRule, duplicateRule] } f0 0
        ⟨[0, 0], [0, 0]⟩).1.map (fun f => f.data) = [[0], [0]]) ∧
    [[0], [0]] ≠ ([[1], [1]] : List (List Nat)) := by
  decide

/-- C3 (amended): when a Duplicate rule triggers in
FaultInjector.process_frame, the in-flight result list is replaced by exactly
two copies of the original input frame, whatever the in-flight result was
(mutations from earlier-triggered rules such as Corrupt are discarded, not
doubled); rules continue to apply in registration order. -/
theorem C3_duplicate_replaces_result_with_two_input_copies
    (frame : CANFrame) (now : ℚ) (rule : FaultRule) (rest : List FaultRule)
    (result : List CANFrame) (stats : FaultStatistics) (g : RandomOracle)
    (he : rule.enabled = true)
    (ha : rule.applies_to frame.arbitration_id = true)
    (ht : rule.fault_type = FaultType.duplicate)
    (hp : ¬ (g.nextFloat).1 > rule.probability) :
    processRules frame now (rule :: rest) result stats g =
      processRules frame now rest [frame, frame]
        { stats with frames_duplicated := stats.frames_duplicated + 1 }
        (g.nextFloat).2 := by
  rcases hfg : g.nextFloat with ⟨draw, g1⟩
  rw [hfg] at hp
  simp only at hp
  conv_lhs => unfold processRules
  simp [he, ha, ht, hfg, hp]

/-- C3 witness: the amended statement at a concrete input whose in-flight
result is an already-corrupted frame. -/
theorem C3_duplicate_witness :
    processRules f0 0 [duplicateRule] [fAltered] {} ⟨[0], []⟩ =
      processRules f0 0 [] [f0, f0] { frames_duplicated := 1 } ⟨[], []⟩ := by
  have h := C3_duplicate_replaces_result_with_two_input_copies f0 0
    duplicateRule [] [fAltered] {} ⟨[0], []⟩ rfl rfl rfl (by decide)
  simpa using h

/-- C4 counterexample: a Corrupt rule triggering on a frame with empty payload
replaces the result with one frame whose payload is unchanged — zero bits
differ from the input, not exactly one, because _corrupt_data returns empty
data untouched. -/
theorem C4_counterexample_corrupt_empty_payload :
    (FaultInjector.process_frame { rules := [corruptRule] } fEmpty 0
        ⟨[0], []⟩).1 = [⟨0x100, [], 0, false, false, none⟩] ∧
    bitsDiffTotal fEmpty.data [] = 0 := by
  decide

/-- C4 (amended): when a Corrupt rule triggers on a frame with non-empty
payload, the in-flight result is replaced by exactly one frame whose payload
has the same length and differs from the input payload in exactly one bit (at
the oracle-chosen byte and bit position); a frame with empty payload is passed
through with payload unchanged. -/
theorem C4_corrupt_replaces_result_with_one_bit_flip
    (frame : CANFrame) (now : ℚ) (rule : FaultRule) (rest : List FaultRule)
    (result : List CANFrame) (stats : FaultStatistics) (g : RandomOracle)
    (he : rule.enabled = true)
    (ha : rule.applies_to frame.arbitration_id = true)
    (ht : rule.fault_type = FaultType.corrupt)
    (hp : ¬ (g.nextFloat).1 > rule.probability)
    (hne : frame.data ≠ []) :
    ∃ cd g2,
      cd.length = frame.data.length ∧
      bitsDiffTotal frame.data cd = 1 ∧
      processRules frame now (rule :: rest) result stats g =
        processRules frame now rest
          [⟨frame.arbitration_id, cd, frame.timestamp, frame.is_extended_id,
            false, none⟩]
          { stats with frames_corrupted := stats.frames_corrupted + 1 } g2 := by
  rcases hfg : g.nextFloat with ⟨draw, g1⟩
  rw [hfg] at hp
  simp only at hp
  obtain ⟨cd, g2, hcd, hlen, hdiff⟩ := corrupt_data_one_bit frame.data g1 hne
  refine ⟨cd, g2, hlen, hdiff, ?_⟩
  conv_lhs => unfold processRules
  simp [he, ha, ht, hfg, hp, hcd]

/-- C4 witness: the amended statement at a concrete one-byte frame. -/
theorem C4_corrupt_witness :
    ∃ cd g2,
      cd.length = f0.data.length ∧
      bitsDiffTotal f0.data cd = 1 ∧
      processRules f0 0 [corruptRule] [fAltered] {} ⟨[0], [0, 0]⟩ =
        processRules f0 0 []
          [⟨f0.arbitration_id, cd, f0.timestamp, f0.is_extended_id,
            false, none⟩]
          { frames_corrupted := 1 } g2 :=
  C4_corrupt_replaces_result_with_one_bit_flip f0 0 corruptRule [] [fAltered]
    {} ⟨[0], [0, 0]⟩ rfl rfl rfl (by decide) (by decide)

/-! ## Bus (src/virtual_bus/core/bus.py) -/

/-- Embedding of the BusStatistics dataclass (the wall-clock start_time and
the derived elapsed_time / frames_per_second properties are timing-only and
not modelled). -/
structure BusStatistics where
  frames_transmitted : Nat := 0
  bytes_transmitted : Nat := 0
  last_frame_time : Option ℚ := none
deriving DecidableEq, Repr

/-- State of a VirtualCANBus.  frame_queue is None until the first start
creates an asyncio.Queue (modelled as a frame list); task records whether a
dispatch task object is held; dispatched is the embedding of the delivery
effect of the dispatch loop — the frames that have been handed to the attached
nodes and observers, oldest first. -/
structure VirtualCANBus where
  frame_queue : Option (List CANFrame) := none
  running : Bool := false
  task : Bool := false
  statistics : BusStatistics := {}
  dispatched : List CANFrame := []
deriving DecidableEq, Repr

/-- Embedding of VirtualCANBus.transmit: enqueue onto the frame queue when one
exists, otherwise do nothing. -/
def VirtualCANBus.transmit (bus : VirtualCANBus) (f : CANFrame) : VirtualCANBus :=
  match bus.frame_queue with
  | none => bus
  | some q => { bus with frame_queue := some (q ++ [f]) }

/-- Embedding of VirtualCANBus.start: a no-op when already running, otherwise
reset the statistics, create a fresh empty queue and launch the dispatch
task. -/
def VirtualCANBus.start (bus : VirtualCANBus) : VirtualCANBus :=
  if bus.running then bus
  else
    { bus with
      running := true
      statistics := {}
      frame_queue := some []
      task := true }

/-- Embedding of VirtualCANBus.stop: clear the running flag, cancel and await
the task if any, then drain the queue.  The drain loop reads
self._frame_queue.empty() without a None check, so on a bus whose queue was
never created it raises AttributeError. -/
def VirtualCANBus.stop (bus : VirtualCANBus) : Except String VirtualCANBus :=
  let bus1 := { bus with running := false, task := false }
  match bus1.frame_queue with
  | none => Except.error "AttributeError: NoneType object has no attribute empty"
  | some _ => Except.ok { bus1 with frame_queue := some [] }

/-- Embedding of one iteration of VirtualCANBus._process_frames with a frame
available: while running, dequeue the head frame, update the statistics and
deliver it synchronously to all nodes then all observers (recorded in
dispatched).  With the loop not running or the queue empty nothing happens. -/
def VirtualCANBus.dispatchOne (bus : VirtualCANBus) : VirtualCANBus :=
  if bus.running = false then bus
  else
    match bus.frame_queue with
    | some (f :: rest) =>
      { bus with
        frame_queue := some rest
        statistics :=
          { frames_transmitted := bus.statistics.frames_transmitted + 1
            bytes_transmitted := bus.statistics.bytes_transmitted + f.data.length
            last_frame_time := some f.timestamp }
        dispatched := bus.dispatched ++ [f] }
    | _ => bus

/-- Operations of the bus state machine. -/
inductive BusOp
  | start
  | stop
  | transmit (f : CANFrame)
  | dispatch
deriving DecidableEq, Repr

/-- One operation of the bus state machine; stop can raise. -/
def busStep (bus : VirtualCANBus) : BusOp → Except String VirtualCANBus
  | BusOp.start => Except.ok bus.start
  | BusOp.stop => bus.stop
  | BusOp.transmit f => Except.ok (bus.transmit f)
  | BusOp.dispatch => Except.ok bus.dispatchOne

/-- Run of the bus state machine; an exception aborts the run. -/
def busRun (bus : VirtualCANBus) : List BusOp → Except String VirtualCANBus
  | [] => Except.ok bus
  | op :: ops =>
    match busStep bus op with
    | Except.error e => Except.error e
    | Except.ok b2 => busRun b2 ops

/-- Checks that every transmit of the frame f in the operation sequence
happens while the bus is not running. -/
def transmitsWhileStoppedOnly (f : CANFrame) : VirtualCANBus → List BusOp → Bool
  | _, [] => true
  | bus, op :: ops =>
    (match op with
     | BusOp.transmit g => g != f || bus.running == false
     | _ => true) &&
    (match busStep bus op with
     | Except.ok b2 => transmitsWhileStoppedOnly f b2 ops
     | Except.error _ => true)

/-- The frame f has not been delivered, and while the bus runs it is not
queued either. -/
def busInv (f : CANFrame) (bus : VirtualCANBus) : Prop :=
  f ∉ bus.dispatched ∧
    (bus.running = true → ∀ q, bus.frame_queue = some q → f ∉ q)

theorem busStep_preserves_inv (f : CANFrame) (bus b2 : VirtualCANBus)
    (op : BusOp) (hinv : busInv f bus)
    (hop : ∀ g, op = BusOp.transmit g → g = f → bus.running = false)
    (hstep : busStep bus op = Except.ok b2) :
    busInv f b2 := by
  obtain ⟨hd, hq⟩ := hinv
  cases op with
  | start =>
    simp only [busStep, Except.ok.injEq] at hstep
    subst hstep
    unfold VirtualCANBus.start
    by_cases hr : bus.running
    · rw [if_pos hr]
      exact ⟨hd, hq⟩
    · rw [if_neg hr]
      refine ⟨hd, ?_⟩
      intro _ q hq2
      simp only [Option.some.injEq] at hq2
      subst hq2
      simp
  | stop =>
    simp only [busStep, VirtualCANBus.stop] at hstep
    cases hfq : bus.frame_queue with
    | none => rw [hfq] at hstep; simp at hstep
    | some q =>
      rw [hfq] at hstep
      simp only [Except.ok.injEq] at hstep
      subst hstep
      refine ⟨hd, ?_⟩
      intro hr
      simp at hr
  | transmit g =>
    simp only [busStep, Except.ok.injEq] at hstep
    subst hstep
    unfold VirtualCANBus.transmit
    cases hfq : bus.frame_queue with
    | none => exact ⟨hd, hq⟩
    | some q =>
      refine ⟨hd, ?_⟩
      intro hr q2 hq2
      simp only [Option.some.injEq] at hq2
      subst hq2
      intro hmem
      rcases List.mem_append.mp hmem with hmem1 | hmem2
      · exact hq hr q hfq hmem1
      · have hg : g = f := (List.mem_singleton.mp hmem2).symm
        have := hop g rfl hg
        rw [this] at hr
        exact Bool.false_ne_true hr
  | dispatch =>
    simp only [busStep, Except.ok.injEq] at hstep
    subst hstep
    unfold VirtualCANBus.dispatchOne
    by_cases hr : bus.running = false
    · rw [if_pos hr]
      exact ⟨hd, hq⟩
    · rw [if_neg hr]
      have hr2 : bus.running = true := by
        cases hb : bus.running
        · exact absurd hb hr
        · rfl
      cases hfq : bus.frame_queue with
      | none => exact ⟨hd, hq⟩
      | some q =>
        cases q with
        | nil => exact ⟨hd, hq⟩
        | cons h t =>
          have hnotin : f ∉ h :: t := hq hr2 (h :: t) hfq
          refine ⟨?_, ?_⟩
          · intro hmem
            rcases List.mem_append.mp hmem with hmem1 | hmem2
            · exact hd hmem1
            · have hf : f = h := List.mem_singleton.mp hmem2
              exact hnotin (hf ▸ List.mem_cons_self h t)
          · intro _ q2 hq2
            simp only [Option.some.injEq] at hq2
            subst hq2
            exact fun hmem => hnotin (List.mem_cons_of_mem _ hmem)

theorem busRun_stopped_transmits_not_dispatched (f : CANFrame)
    (ops : List BusOp) (bus s : VirtualCANBus) (hinv : busInv f bus)
    (hb : transmitsWhileStoppedOnly f bus ops = true)
    (hrun : busRun bus ops = Except.ok s) :
    f ∉ s.dispatched := by
  induction ops generalizing bus with
  | nil =>
    simp only [busRun, Except.ok.injEq] at hrun
    subst hrun
    exact hinv.1
  | cons op ops ih =>
    simp only [transmitsWhileStoppedOnly, Bool.and_eq_true] at hb
    obtain ⟨hb1, hb2⟩ := hb
    simp only [busRun] at hrun
    cases hstep : busStep bus op with
    | error e => rw [hstep] at hrun; simp at hrun
    | ok b2 =>
      rw [hstep] at hrun hb2
      refine ih b2 ?_ hb2 hrun
      refine busStep_preserves_inv f bus b2 op hinv ?_ hstep
      intro g hg hgf
      subst hg
      simp only [Bool.or_eq_true, bne_iff_ne, ne_eq, beq_iff_eq] at hb1
      rcases hb1 with hcase | hcase
      · exact absurd hgf hcase
      · exact hcase

/-- C7: the claim says every state-transition call is safe to invoke
redundantly from any state, in particular stop on a bus that was never
started.  On a never-started bus _frame_queue is None and the drain loop in
stop evaluates self._frame_queue.empty(), raising AttributeError — the code
slip contradicts the claimed (and elsewhere consistently implemented)
safety: transmit and _process_frames both guard against a None queue, and
stop after a start (redundantly repeated) succeeds. -/
theorem C7_stop_on_never_started_bus_raises :
    ({} : VirtualCANBus).stop =
      Except.error "AttributeError: NoneType object has no attribute empty" ∧
    (busRun {} [BusOp.start, BusOp.stop, BusOp.stop]).isOk = true := by
  decide

/-- C8 counterexample: after start followed by stop, the stale queue object
survives, so transmit enqueues the frame (the queue becomes [f0]), refuting
the part of the claim that says the frame is never queued and no bus state
changes. -/
theorem C8_counterexample_transmit_after_stop_enqueues :
    busRun {} [BusOp.start, BusOp.stop, BusOp.transmit f0] =
      Except.ok ⟨some [f0], false, false, {}, []⟩ ∧
    some [f0] ≠ (none : Option (List CANFrame)) := by
  decide

/-- C8 (amended): transmit on a never-started bus (queue still None) is a
complete no-op that discards the frame; transmit after a stop enqueues the
frame onto the stale queue, but such a frame is never delivered: over every
operation sequence from a fresh bus in which the frame is only ever
transmitted while the bus is not running, the frame never appears in the
delivery log handed to nodes and observers. -/
theorem C8_transmit_while_not_started_never_delivered (f : CANFrame)
    (ops : List BusOp) (s : VirtualCANBus)
    (hb : transmitsWhileStoppedOnly f {} ops = true)
    (hrun : busRun {} ops = Except.ok s) :
    f ∉ s.dispatched ∧
      ∀ bus : VirtualCANBus, bus.frame_queue = none → bus.transmit f = bus := by
  constructor
  · refine busRun_stopped_transmits_not_dispatched f ops {} s ⟨?_, ?_⟩ hb hrun
    · simp
    · intro hr
      simp at hr
  · intro bus h
    unfold VirtualCANBus.transmit
    rw [h]

/-- Operation sequence transmitting f0 on a stopped bus, then restarting and
dispatching. -/
def demoOps : List BusOp :=
  [BusOp.start, BusOp.stop, BusOp.transmit f0, BusOp.start, BusOp.dispatch,
    BusOp.stop]

/-- C8 witness: over the concrete sequence demoOps the frame transmitted
while stopped is never delivered. -/
theorem C8_transmit_witness :
    transmitsWhileStoppedOnly f0 {} demoOps = true ∧
    f0 ∉ (⟨some [], false, false, {}, []⟩ : VirtualCANBus).dispatched :=
  ⟨by decide,
    (C8_transmit_while_not_started_never_delivered f0 demoOps
      ⟨some [], false, false, {}, []⟩ (by decide) (by decide)).1⟩

/-! ## Observer (src/virtual_bus/observer/observer.py) -/

/-- Embedding of the ObservedFrame dataclass. -/
structure ObservedFrame where
  frame : CANFrame
  observation_time : ℚ
  sequence_number : Nat
  inter_arrival_time : Option ℚ := none
deriving DecidableEq, Repr

/-- Embedding of the MessageStatistics dataclass. -/
structure MessageStatistics where
  count : Nat := 0
  first_seen : Option ℚ := none
  last_seen : Option ℚ := none
  min_interval : Option ℚ := none
  max_interval : Option ℚ := none
  total_bytes : Nat := 0
deriving DecidableEq, Repr

/-- State of a BusObserver: the bounded buffer, the monotonic sequence
counter, the per-id last-seen times and the per-id statistics (a defaultdict,
modelled as a total function with default value).  The callback list, the bus
reference and the wall-clock _start_time play no role in the buffer and
counting behaviour and are left out. -/
structure BusObserver where
  buffer_size : Nat := 10000
  buffer : List ObservedFrame := []
  sequence : Nat := 0
  last_times : Int → Option ℚ := fun _ => none
  statistics : Int → MessageStatistics := fun _ => {}

/-- Embedding of the BusObserver.frame_count property. -/
def BusObserver.frame_count (o : BusObserver) : Nat := o.sequence

/-- Embedding of BusObserver._on_frame at observation time now: compute the
inter-arrival time against the last same-id sighting, append an ObservedFrame
carrying the next sequence number, evict the oldest buffered frame when the
buffer is at capacity (list.pop(0); the source would raise IndexError on an
empty buffer, which can only happen with a configured capacity of 0 — the
embedding is total and the theorems assume a positive capacity), and update
the per-id statistics.  Callback errors are discarded by the source and do
not affect the state. -/
def BusObserver.on_frame (o : BusObserver) (f : CANFrame) (now : ℚ) : BusObserver :=
  let arb_id := f.arbitration_id
  let inter_arrival : Option ℚ :=
    match o.last_times arb_id with
    | some t => some (now - t)
    | none => none
  let observed : ObservedFrame :=
    { frame := f
      observation_time := now
      sequence_number := o.sequence
      inter_arrival_time := inter_arrival }
  let buffer1 := if o.buffer.length ≥ o.buffer_size then o.buffer.tail else o.buffer
  let stats0 := o.statistics arb_id
  let stats1 :=
    { stats0 with
      count := stats0.count + 1
      total_bytes := stats0.total_bytes + f.data.length
      first_seen := match stats0.first_seen with
        | none => some now
        | some t => some t
      last_seen := some now }
  let stats2 :=
    match inter_arrival with
    | none => stats1
    | some ia =>
      { stats1 with
        min_interval := match stats1.min_interval with
          | none => some ia
          | some m => if ia < m then some ia else some m
        max_interval := match stats1.max_interval with
          | none => some ia
          | some m => if ia > m then some ia else some m }
  { o with
    last_times := fun i => if i = arb_id then some now else o.last_times i
    buffer := buffer1 ++ [observed]
    sequence := o.sequence + 1
    statistics := fun i => if i = arb_id then stats2 else o.statistics i }

/-- Embedding of BusObserver.clear: empty the buffer, reset the sequence
counter, the last-seen times and the statistics. -/
def BusObserver.clear (o : BusObserver) : BusObserver :=
  { o with
    buffer := []
    sequence := 0
    last_times := fun _ => none
    statistics := fun _ => {} }

/-- Operations applied to an observer. -/
inductive ObsOp
  | frame (f : CANFrame) (now : ℚ)
  | clear
deriving DecidableEq, Repr

/-- Run a sequence of observer operations. -/
def obsRun (o : BusObserver) : List ObsOp → BusObserver
  | [] => o
  | ObsOp.frame f now :: ops => obsRun (o.on_frame f now) ops
  | ObsOp.clear :: ops => obsRun o.clear ops

/-- Number of frame operations since the last clear operation. -/
def framesSinceClear (ops : List ObsOp) : Nat :=
  ops.foldl
    (fun n op =>
      match op with
      | ObsOp.frame _ _ => n + 1
      | ObsOp.clear => 0)
    0

/-- The buffer respects the capacity and holds consecutive sequence numbers
ending just below the sequence counter. -/
def obsInv (o : BusObserver) : Prop :=
  o.buffer.length ≤ o.buffer_size ∧
  o.buffer.length ≤ o.sequence ∧
  o.buffer.map (fun x => x.sequence_number) =
    List.range' (o.sequence - o.buffer.length) o.buffer.length

theorem on_frame_buffer (o : BusObserver) (f : CANFrame) (now : ℚ) :
    (o.on_frame f now).buffer =
      (if o.buffer.length ≥ o.buffer_size then o.buffer.tail else o.buffer) ++
        [{ frame := f
           observation_time := now
           sequence_number := o.sequence
           inter_arrival_time :=
             match o.last_times f.arbitration_id with
             | some t => some (now - t)
             | none => none }] := rfl

theorem on_frame_sequence (o : BusObserver) (f : CANFrame) (now : ℚ) :
    (o.on_frame f now).sequence = o.sequence + 1 := rfl

theorem on_frame_buffer_size (o : BusObserver) (f : CANFrame) (now : ℚ) :
    (o.on_frame f now).buffer_size = o.buffer_size := rfl

theorem on_frame_inv (o : BusObserver) (f : CANFrame) (now : ℚ)
    (hcap : 0 < o.buffer_size) (h : obsInv o) :
    obsInv (o.on_frame f now) ∧
    (o.on_frame f now).sequence = o.sequence + 1 ∧
    (o.on_frame f now).buffer_size = o.buffer_size := by
  obtain ⟨h1, h2, h3⟩ := h
  refine ⟨?_, rfl, rfl⟩
  unfold obsInv
  rw [on_frame_buffer, on_frame_sequence, on_frame_buffer_size]
  by_cases hfull : o.buffer.length ≥ o.buffer_size
  · rw [if_pos hfull]
    cases hbuf : o.buffer with
    | nil =>
      rw [hbuf] at hfull
      simp at hfull
      omega
    | cons b bs =>
      rw [hbuf] at h1 h2 h3
      simp only [List.length_cons] at h1 h2 h3
      rw [List.range'_succ] at h3
      simp only [List.map_cons, List.cons.injEq] at h3
      obtain ⟨hb, hbs⟩ := h3
      refine ⟨?_, ?_, ?_⟩
      · simp only [List.tail_cons, List.length_append, List.length_cons,
          List.length_nil]
        omega
      · simp only [List.tail_cons, List.length_append, List.length_cons,
          List.length_nil]
        omega
      · rw [List.tail_cons, List.map_append, hbs]
        simp only [List.map_cons, List.map_nil, List.length_append,
          List.length_cons, List.length_nil]
        have e1 : o.sequence + 1 - (bs.length + (0 + 1)) =
            o.sequence - (bs.length + 1) + 1 := by omega
        rw [e1, List.range'_1_concat]
        have e2 : o.sequence - (bs.length + 1) + 1 + bs.length = o.sequence := by
          omega
        rw [e2]
  · rw [if_neg hfull]
    refine ⟨?_, ?_, ?_⟩
    · simp only [List.length_append, List.length_cons, List.length_nil]
      omega
    · simp only [List.length_append, List.length_cons, List.length_nil]
      omega
    · rw [List.map_append, h3]
      simp only [List.map_cons, List.map_nil, List.length_append,
        List.length_cons, List.length_nil]
      have e1 : o.sequence + 1 - (o.buffer.length + (0 + 1)) =
          o.sequence - o.buffer.length := by omega
      rw [e1, List.range'_1_concat]
      have e2 : o.sequence - o.buffer.length + o.buffer.length = o.sequence := by
        omega
      rw [e2]

theorem clear_inv (o : BusObserver) : obsInv o.clear ∧
    o.clear.sequence = 0 ∧ o.clear.buffer_size = o.buffer_size := by
  refine ⟨⟨?_, ?_, ?_⟩, rfl, rfl⟩ <;> simp [BusObserver.clear]

theorem obsRun_inv (ops : List ObsOp) (o : BusObserver)
    (hcap : 0 < o.buffer_size) (h : obsInv o) :
    obsInv (obsRun o ops) ∧
    (obsRun o ops).buffer_size = o.buffer_size ∧
    (obsRun o ops).sequence = ops.foldl
      (fun n op =>
        match op with
        | ObsOp.frame _ _ => n + 1
        | ObsOp.clear => 0)
      o.sequence := by
  induction ops generalizing o with
  | nil => exact ⟨h, rfl, rfl⟩
  | cons op ops ih =>
    cases op with
    | frame f now =>
      obtain ⟨hi, hs, hb⟩ := on_frame_inv o f now hcap h
      obtain ⟨ih1, ih2, ih3⟩ := ih (o.on_frame f now) (by rw [hb]; exact hcap) hi
      refine ⟨ih1, ih2.trans hb, ?_⟩
      simp only [obsRun, List.foldl_cons]
      rw [ih3, hs]
    | clear =>
      obtain ⟨hi, hs, hb⟩ := clear_inv o
      obtain ⟨ih1, ih2, ih3⟩ := ih o.clear (by rw [hb]; exact hcap) hi
      refine ⟨ih1, ih2.trans hb, ?_⟩
      simp only [obsRun, List.foldl_cons]
      rw [ih3, hs]

/-- C9: across every sequence of _on_frame and clear operations on a
BusObserver with positive configured capacity, the buffer length never
exceeds the capacity; the buffered sequence numbers are consecutive and
strictly increasing with the newest frame last (they form the contiguous
range ending just below the sequence counter); and frame_count equals the
number of frames observed since the last clear, even after evictions. -/
theorem C9_observer_buffer_invariants (cap : Nat) (ops : List ObsOp)
    (hcap : 0 < cap) :
    (obsRun { buffer_size := cap } ops).buffer.length ≤ cap ∧
    (obsRun { buffer_size := cap } ops).buffer.map (fun x => x.sequence_number) =
      List.range'
        ((obsRun { buffer_size := cap } ops).frame_count -
          (obsRun { buffer_size := cap } ops).buffer.length)
        (obsRun { buffer_size := cap } ops).buffer.length ∧
    (obsRun { buffer_size := cap } ops).frame_count = framesSinceClear ops := by
  have h0 : obsInv { buffer_size := cap } := by
    refine ⟨?_, ?_, ?_⟩ <;> simp
  obtain ⟨⟨h1, h2, h3⟩, hb, hs⟩ := obsRun_inv ops { buffer_size := cap }
    (by simpa using hcap) h0
  rw [hb] at h1
  exact ⟨h1, h3, hs⟩

/-- Operation sequence overflowing a capacity-3 buffer, clearing, then
observing again. -/
def demoObsOps : List ObsOp :=
  [ObsOp.frame f0 0, ObsOp.frame fAltered (1 / 10), ObsOp.frame f0 (2 / 10),
    ObsOp.frame fAltered (3 / 10), ObsOp.frame f0 (4 / 10), ObsOp.clear,
    ObsOp.frame f0 (5 / 10), ObsOp.frame fAltered (6 / 10)]

/-- C9 witness: the invariants at capacity 3 over a concrete operation
sequence that overflows the buffer and clears once. -/
theorem C9_observer_witness :
    0 < 3 ∧
    ((obsRun { buffer_size := 3 } demoObsOps).buffer.length ≤ 3 ∧
      (obsRun { buffer_size := 3 } demoObsOps).buffer.map
          (fun x => x.sequence_number) =
        List.range'
          ((obsRun { buffer_size := 3 } demoObsOps).frame_count -
            (obsRun { buffer_size := 3 } demoObsOps).buffer.length)
          (obsRun { buffer_size := 3 } demoObsOps).buffer.length ∧
      (obsRun { buffer_size := 3 } demoObsOps).frame_count =
        framesSinceClear demoObsOps) :=
  ⟨by decide, C9_observer_buffer_invariants 3 demoObsOps (by decide)⟩

/-! ## Timing analyzer (src/virtual_bus/analyzer/analyzer.py and
src/virtual_bus/analyzer/events.py) -/

/-- Embedding of the EventSeverity enum. -/
inductive EventSeverity
  | info
  | warning
  | error
  | critical
deriving DecidableEq, Repr

/-- Embedding of the AnalysisEvent variants the analyzer constructs, as a
tagged union.  The derived human-readable message string is display-only and
omitted; AnomalousRateEvent is declared in events.py but never constructed by
the analyzer. -/
inductive AnalysisEvent
  | missedDeadline (timestamp : ℚ) (severity : EventSeverity)
      (arbitration_id : Int) (expected_period_ms : ℚ) (actual_interval_ms : ℚ)
  | busSaturation (timestamp : ℚ) (severity : EventSeverity)
      (frame_rate : ℚ) (threshold : ℚ)
  | jitter (timestamp : ℚ) (severity : EventSeverity) (arbitration_id : Int)
      (jitter_ms : ℚ) (threshold_ms : ℚ)
deriving DecidableEq, Repr

/-- Timestamp field shared by all event variants. -/
def AnalysisEvent.timestamp : AnalysisEvent → ℚ
  | AnalysisEvent.missedDeadline t _ _ _ _ => t
  | AnalysisEvent.busSaturation t _ _ _ => t
  | AnalysisEvent.jitter t _ _ _ _ => t

/-- Embedding of isinstance(e, BusSaturationEvent). -/
def AnalysisEvent.isSaturation : AnalysisEvent → Bool
  | AnalysisEvent.busSaturation _ _ _ _ => true
  | _ => false

/-- Embedding of isinstance(e, MissedDeadlineEvent). -/
def AnalysisEvent.isMissedDeadline : AnalysisEvent → Bool
  | AnalysisEvent.missedDeadline _ _ _ _ _ => true
  | _ => false

/-- Embedding of isinstance(e, JitterEvent) and e.arbitration_id == arb_id. -/
def AnalysisEvent.isJitterFor : AnalysisEvent → Int → Bool
  | AnalysisEvent.jitter _ _ a _ _, i => a == i
  | _, _ => false

/-- Embedding of the MessageExpectation dataclass. -/
structure MessageExpectation where
  arbitration_id : Int
  period_ms : ℚ
  tolerance_percent : ℚ := 20
  jitter_threshold_ms : ℚ := 5
deriving DecidableEq, Repr

/-- Embedding of the MessageExpectation.max_interval_ms property. -/
def MessageExpectation.max_interval_ms (e : MessageExpectation) : ℚ :=
  e.period_ms * (1 + e.tolerance_percent / 100)

/-- Embedding of the MessageExpectation.min_interval_ms property. -/
def MessageExpectation.min_interval_ms (e : MessageExpectation) : ℚ :=
  e.period_ms * (1 - e.tolerance_percent / 100)

/-- Embedding of the AnalyzerConfig dataclass. -/
structure AnalyzerConfig where
  bus_saturation_threshold : ℚ := 5000
  window_size_seconds : ℚ := 1
  enable_deadline_detection : Bool := true
  enable_saturation_detection : Bool := true
  enable_jitter_detection : Bool := true
deriving DecidableEq, Repr

/-- State of a TimingAnalyzer.  The per-id dicts are modelled as total
functions with the dict default; the event callbacks and the attached
observer are opaque handles of type φ (invoking a callback never changes
analyzer state and callback exceptions are discarded). -/
structure TimingAnalyzer (φ : Type) where
  config : AnalyzerConfig := {}
  expectations : Int → Option MessageExpectation := fun _ => none
  events : List AnalysisEvent := []
  event_callbacks : List φ := []
  last_times : Int → Option ℚ := fun _ => none
  window_frames : List ℚ := []
  intervals : Int → List ℚ := fun _ => []
  observer : Option φ := none
  is_attached : Bool := false

/-- Embedding of TimingAnalyzer._check_deadline: emit one MissedDeadline when
the interval exceeds the maximum acceptable interval. -/
def TimingAnalyzer.check_deadline (arb_id : Int) (interval_ms : ℚ)
    (expectation : MessageExpectation) (timestamp : ℚ) : List AnalysisEvent :=
  if interval_ms > expectation.max_interval_ms then
    [AnalysisEvent.missedDeadline timestamp EventSeverity.warning arb_id
      expectation.period_ms interval_ms]
  else []

/-- Embedding of TimingAnalyzer._check_saturation, evaluated on the state
whose window was just refreshed: emit one BusSaturation when the window rate
exceeds the threshold, unless one of the last 10 logged events is a
BusSaturation within the last 1.0 time unit (self._events[-10:], which for a
log shorter than 10 is the whole log, as with List.drop and truncated
subtraction). -/
def TimingAnalyzer.check_saturation {φ : Type} (s : TimingAnalyzer φ)
    (timestamp : ℚ) : List AnalysisEvent :=
  let frame_rate := (s.window_frames.length : ℚ) / s.config.window_size_seconds
  if frame_rate > s.config.bus_saturation_threshold then
    if ((s.events.drop (s.events.length - 10)).filter
        (fun e => e.isSaturation && decide (timestamp - e.timestamp < 1))).isEmpty then
      [AnalysisEvent.busSaturation timestamp EventSeverity.error frame_rate
        s.config.bus_saturation_threshold]
    else []
  else []

/-- Embedding of TimingAnalyzer._check_jitter, evaluated on the state whose
intervals and event log were just updated: over the last 10 intervals
(minimum 5 samples), emit one Jitter event when the maximum absolute
deviation from the average exceeds the threshold, rate limited against the
last 20 logged events.  Python computes max over a non-empty sequence of
absolute values; the fold with base 0 agrees because deviations are
non-negative. -/
def TimingAnalyzer.check_jitter {φ : Type} (s : TimingAnalyzer φ)
    (arb_id : Int) (expectation : MessageExpectation) (timestamp : ℚ) :
    List AnalysisEvent :=
  let intervals := s.intervals arb_id
  if intervals.length < 5 then []
  else
    let recent := intervals.drop (intervals.length - 10)
    let avg := recent.sum / (recent.length : ℚ)
    let max_deviation := (recent.map (fun x => |x - avg|)).foldr max 0
    if max_deviation > expectation.jitter_threshold_ms then
      if ((s.events.drop (s.events.length - 20)).filter
          (fun e => e.isJitterFor arb_id && decide (timestamp - e.timestamp < 1))).isEmpty then
        [AnalysisEvent.jitter timestamp EventSeverity.warning arb_id
          max_deviation expectation.jitter_threshold_ms]
      else []
    else []

/-- Embedding of the interval-history cap in _on_frame: keep the most recent
100 intervals. -/
def trimIntervals (l : List ℚ) : List ℚ :=
  if l.length > 100 then l.drop (l.length - 100) else l

/-- Embedding of the sliding-window refresh at the top of _on_frame: append
the new timestamp, then keep only the timestamps newer than the cutoff. -/
def refreshWindow {φ : Type} (s : TimingAnalyzer φ) (now : ℚ) : List ℚ :=
  (s.window_frames ++ [now]).filter
    (fun t => decide (t > now - s.config.window_size_seconds))

/-- Embedding of TimingAnalyzer._on_frame for an observed frame with the
given arbitration id and observation time: refresh the sliding window, run
the saturation check (against the pre-frame event log), then if the id was
seen before record the inter-arrival interval, trim the history, and for ids
with a configured expectation run the deadline check and then the jitter
check (the jitter rate limit sees the events emitted earlier in this frame);
finally update the last-seen time.  Events are appended to the log in
emission order: saturation, missed deadline, jitter. -/
def TimingAnalyzer.on_frame {φ : Type} (s : TimingAnalyzer φ) (arb_id : Int)
    (now : ℚ) : TimingAnalyzer φ :=
  let s1 := { s with window_frames := refreshWindow s now }
  let sat := if s.config.enable_saturation_detection then
    s1.check_saturation now else []
  let events1 := s.events ++ sat
  match s.last_times arb_id with
  | none =>
    { s1 with
      events := events1
      last_times := fun i => if i = arb_id then some now else s.last_times i }
  | some tprev =>
    let interval_ms := (now - tprev) * 1000
    let intervals2 := trimIntervals (s.intervals arb_id ++ [interval_ms])
    let md := match s.expectations arb_id with
      | some expectation =>
        if s.config.enable_deadline_detection then
          TimingAnalyzer.check_deadline arb_id interval_ms expectation now
        else []
      | none => []
    let events2 := events1 ++ md
    let s2 := { s1 with
      events := events2
      intervals := fun i => if i = arb_id then intervals2 else s.intervals i }
    let jit := match s.expectations arb_id with
      | some expectation =>
        if s.config.enable_jitter_detection then
          s2.check_jitter arb_id expectation now
        else []
      | none => []
    { s2 with
      events := events2 ++ jit
      last_times := fun i => if i = arb_id then some now else s.last_times i }

/-- Embedding of TimingAnalyzer.clear: empty the event log, the last-seen
times, the saturation window and the interval histories; nothing else is
touched. -/
def TimingAnalyzer.clear {φ : Type} (s : TimingAnalyzer φ) : TimingAnalyzer φ :=
  { s with
    events := []
    last_times := fun _ => none
    window_frames := []
    intervals := fun _ => [] }

/-- Run the analyzer over a trace of observed (arbitration id, observation
time) pairs. -/
def analyzerRun {φ : Type} (s : TimingAnalyzer φ) :
    List (Int × ℚ) → TimingAnalyzer φ
  | [] => s
  | (i, t) :: rest => analyzerRun (s.on_frame i t) rest

/-- C10: TimingAnalyzer.clear empties the event log, the per-id last-seen
times, the saturation window and the per-id interval histories, and leaves
every other field unchanged: the configured MessageExpectations, the
registered event callbacks, the analyzer configuration, and the attachment to
the observer all survive a clear. -/
theorem C10_clear_resets_exactly_analysis_state {φ : Type}
    (s : TimingAnalyzer φ) :
    s.clear.events = [] ∧
    s.clear.last_times = (fun _ => none) ∧
    s.clear.window_frames = [] ∧
    s.clear.intervals = (fun _ => []) ∧
    s.clear.expectations = s.expectations ∧
    s.clear.event_callbacks = s.event_callbacks ∧
    s.clear.config = s.config ∧
    s.clear.observer = s.observer ∧
    s.clear.is_attached = s.is_attached :=
  ⟨rfl, rfl, rfl, rfl, rfl, rfl, rfl, rfl, rfl⟩

/-- C10 witness: clear at a concrete attached analyzer state. -/
theorem C10_clear_witness :
    ({ is_attached := true, event_callbacks := [()] } :
      TimingAnalyzer Unit).clear.events = [] ∧
    ({ is_attached := true, event_callbacks := [()] } :
      TimingAnalyzer Unit).clear.event_callbacks = [()] :=
  ⟨(C10_clear_resets_exactly_analysis_state
      ({ is_attached := true, event_callbacks := [()] } : TimingAnalyzer Unit)).1,
    (C10_clear_resets_exactly_analysis_state
      ({ is_attached := true, event_callbacks := [()] } : TimingAnalyzer Unit)).2.2.2.2.2.1⟩

/-- The MissedDeadline events of an event log. -/
def mdEvents (l : List AnalysisEvent) : List AnalysisEvent :=
  l.filter (fun e => e.isMissedDeadline)

theorem mdEvents_append (a b : List AnalysisEvent) :
    mdEvents (a ++ b) = mdEvents a ++ mdEvents b := by
  simp [mdEvents]

theorem mdEvents_check_saturation {φ : Type} (s : TimingAnalyzer φ) (t : ℚ) :
    mdEvents (s.check_saturation t) = [] := by
  unfold TimingAnalyzer.check_saturation mdEvents
  dsimp only
  split_ifs <;> rfl

theorem mdEvents_check_jitter {φ : Type} (s : TimingAnalyzer φ) (arb_id : Int)
    (e : MessageExpectation) (t : ℚ) :
    mdEvents (s.check_jitter arb_id e t) = [] := by
  unfold TimingAnalyzer.check_jitter mdEvents
  dsimp only
  split_ifs <;> rfl

theorem mdEvents_check_deadline (arb_id : Int) (interval_ms : ℚ)
    (e : MessageExpectation) (t : ℚ) :
    mdEvents (TimingAnalyzer.check_deadline arb_id interval_ms e t) =
      TimingAnalyzer.check_deadline arb_id interval_ms e t := by
  unfold TimingAnalyzer.check_deadline mdEvents
  split_ifs <;> rfl

/-- C5: in one _on_frame step with deadline detection enabled, a
MissedDeadline event is appended exactly when the id has a configured
MessageExpectation, a previous same-id sighting exists, and the inter-arrival
interval in ms exceeds period × (1 + tolerance); the event carries the
expected period and the actual interval, and no MissedDeadline is emitted for
ids without an expectation or intervals within bound. -/
theorem C5_missed_deadline_exactly_on_excess {φ : Type}
    (s : TimingAnalyzer φ) (arb_id : Int) (now : ℚ)
    (hdl : s.config.enable_deadline_detection = true) :
    mdEvents (s.on_frame arb_id now).events =
      mdEvents s.events ++
        match s.expectations arb_id, s.last_times arb_id with
        | some expectation, some tprev =>
          if (now - tprev) * 1000 > expectation.max_interval_ms then
            [AnalysisEvent.missedDeadline now EventSeverity.warning arb_id
              expectation.period_ms ((now - tprev) * 1000)]
          else []
        | _, _ => [] := by
  have hsat : ∀ (s3 : TimingAnalyzer φ),
      mdEvents (if s.config.enable_saturation_detection then
        s3.check_saturation now else []) = [] := by
    intro s3
    split_ifs
    · exact mdEvents_check_saturation s3 now
    · rfl
  unfold TimingAnalyzer.on_frame
  cases hlt : s.last_times arb_id with
  | none =>
    cases hexp : s.expectations arb_id <;>
      simp only [mdEvents_append, hsat, List.append_nil]
  | some tprev =>
    cases hexp : s.expectations arb_id with
    | none =>
      simp only [mdEvents_append, hsat, List.append_nil]
    | some expectation =>
      simp only [hdl, if_true, ite_true]
      simp only [mdEvents_append, hsat, List.append_nil,
        mdEvents_check_deadline]
      have hjit : ∀ (s3 : TimingAnalyzer φ),
          mdEvents (if s.config.enable_jitter_detection then
            s3.check_jitter arb_id expectation now else []) = [] := by
        intro s3
        split_ifs
        · exact mdEvents_check_jitter s3 arb_id expectation now
        · rfl
      simp only [hjit, List.append_nil]
      rfl

/-- Analyzer configured with expectation {id 0x100, period 50 ms,
tolerance 20 percent} and the default configuration. -/
def analyzer50 : TimingAnalyzer Unit :=
  { expectations := fun i =>
      if i = 0x100 then
        some { arbitration_id := 0x100, period_ms := 50 }
      else none }

/-- C5 witness: two same-id frames 120 ms apart yield exactly one
MissedDeadline with expected period 50 and actual interval 120, while two
frames 55 ms apart yield none. -/
theorem C5_missed_deadline_witness :
    mdEvents (analyzerRun analyzer50 [(0x100, 0), (0x100, 12 / 100)]).events =
      [AnalysisEvent.missedDeadline (12 / 100) EventSeverity.warning 0x100
        50 120] ∧
    mdEvents (analyzerRun analyzer50 [(0x100, 0), (0x100, 55 / 1000)]).events =
      [] := by
  constructor
  · have h := C5_missed_deadline_exactly_on_excess
      (analyzer50.on_frame 0x100 0) 0x100 (12 / 100) rfl
    rw [show analyzerRun analyzer50 [(0x100, 0), (0x100, 12 / 100)] =
      (analyzer50.on_frame 0x100 0).on_frame 0x100 (12 / 100) from rfl, h]
    decide
  · have h := C5_missed_deadline_exactly_on_excess
      (analyzer50.on_frame 0x100 0) 0x100 (55 / 1000) rfl
    rw [show analyzerRun analyzer50 [(0x100, 0), (0x100, 55 / 1000)] =
      (analyzer50.on_frame 0x100 0).on_frame 0x100 (55 / 1000) from rfl, h]
    decide

/-- Suppression shape of a saturation event log: two BusSaturation events
whose timestamps are less than 1.0 apart are always separated by more than 10
intervening log positions. -/
def satSuppressionOK (L : List AnalysisEvent) : Prop :=
  ∀ (i j : Nat) (hi : i < L.length) (hj : j < L.length), i < j →
    (L.get ⟨i, hi⟩).isSaturation = true →
    (L.get ⟨j, hj⟩).isSaturation = true →
    (L.get ⟨j, hj⟩).timestamp - (L.get ⟨i, hi⟩).timestamp < 1 →
    j - i > 10

theorem mem_drop_of_get (L : List AnalysisEvent) (k i : Nat) (hki : k ≤ i)
    (hi : i < L.length) : L.get ⟨i, hi⟩ ∈ L.drop k := by
  have hlt : i - k < (L.drop k).length := by
    rw [List.length_drop]
    omega
  have hx := List.getElem_mem hlt
  rw [List.getElem_drop] at hx
  have hidx : k + (i - k) = i := by omega
  simp only [hidx] at hx
  simpa using hx

theorem satOK_append (L E : List AnalysisEvent) (h : satSuppressionOK L)
    (hE : ∀ e ∈ E, e.isSaturation = false) : satSuppressionOK (L ++ E) := by
  intro i j hi hj hij hsi hsj hts
  simp only [List.get_eq_getElem] at hsi hsj hts
  by_cases hjL : j < L.length
  · have hiL : i < L.length := Nat.lt_trans hij hjL
    rw [List.getElem_append_left hjL] at hsj hts
    rw [List.getElem_append_left hiL] at hsi hts
    exact h i j hiL hjL hij (by simpa using hsi) (by simpa using hsj)
      (by simpa using hts)
  · exfalso
    have hL : L.length ≤ j := Nat.le_of_not_lt hjL
    rw [List.getElem_append_right hL] at hsj
    have hjE : j - L.length < E.length := by
      rw [List.length_append] at hj
      omega
    have hmem : E[j - L.length] ∈ E := List.getElem_mem hjE
    exact Bool.false_ne_true ((hE _ hmem).symm.trans hsj)

theorem satOK_append_sat (L : List AnalysisEvent) (e : AnalysisEvent)
    (h : satSuppressionOK L)
    (hguard : ∀ x ∈ L.drop (L.length - 10), x.isSaturation = true →
      e.timestamp - x.timestamp < 1 → False) :
    satSuppressionOK (L ++ [e]) := by
  intro i j hi hj hij hsi hsj hts
  simp only [List.get_eq_getElem] at hsi hsj hts
  have hjlen : j < L.length + 1 := by
    rw [List.length_append] at hj
    simpa using hj
  by_cases hjL : j < L.length
  · have hiL : i < L.length := Nat.lt_trans hij hjL
    rw [List.getElem_append_left hjL] at hsj hts
    rw [List.getElem_append_left hiL] at hsi hts
    exact h i j hiL hjL hij (by simpa using hsi) (by simpa using hsj)
      (by simpa using hts)
  · have hjeq : j = L.length := by omega
    have hiL : i < L.length := by omega
    rw [List.getElem_concat_length L e j hjeq] at hsj hts
    rw [List.getElem_append_left hiL] at hsi hts
    by_contra hcase
    have hk : L.length - 10 ≤ i := by omega
    have hxmem := mem_drop_of_get L (L.length - 10) i hk hiL
    simp only [List.get_eq_getElem] at hxmem
    exact hguard _ hxmem (by simpa using hsi) (by simpa using hts)

theorem check_saturation_cases {φ : Type} (s : TimingAnalyzer φ) (t : ℚ) :
    s.check_saturation t = [] ∨
    (∃ fr, s.check_saturation t =
        [AnalysisEvent.busSaturation t EventSeverity.error fr
          s.config.bus_saturation_threshold] ∧
      ((s.events.drop (s.events.length - 10)).filter
        (fun e => e.isSaturation && decide (t - e.timestamp < 1))).isEmpty
        = true) := by
  unfold TimingAnalyzer.check_saturation
  dsimp only
  split_ifs with h1 h2
  · right
    exact ⟨_, rfl, h2⟩
  · left
    rfl
  · left
    rfl

theorem satOK_append_check_saturation {φ : Type} (L : List AnalysisEvent)
    (s1 : TimingAnalyzer φ) (now : ℚ) (h : satSuppressionOK L)
    (hev : s1.events = L) :
    satSuppressionOK (L ++ s1.check_saturation now) := by
  rcases check_saturation_cases s1 now with hc | ⟨fr, hc, hguard⟩
  · rw [hc]
    exact satOK_append L [] h (by intro e he; simp at he)
  · rw [hc]
    apply satOK_append_sat L _ h
    intro x hx hxs hxt
    rw [hev] at hguard
    have hnil : List.filter
        (fun e => e.isSaturation && decide (now - e.timestamp < 1))
        (L.drop (L.length - 10)) = [] := by
      rwa [List.isEmpty_iff] at hguard
    have hnot := (List.filter_eq_nil_iff.mp hnil) x hx
    apply hnot
    simp only [hxs, Bool.true_and, decide_eq_true_eq]
    exact hxt

theorem check_deadline_no_sat (a : Int) (iv : ℚ) (e : MessageExpectation)
    (t : ℚ) :
    ∀ x ∈ TimingAnalyzer.check_deadline a iv e t, x.isSaturation = false := by
  unfold TimingAnalyzer.check_deadline
  split_ifs <;> intro x hx
  · rw [List.mem_singleton.mp hx]
    rfl
  · simp at hx

theorem check_jitter_no_sat {φ : Type} (s : TimingAnalyzer φ) (a : Int)
    (e : MessageExpectation) (t : ℚ) :
    ∀ x ∈ s.check_jitter a e t, x.isSaturation = false := by
  unfold TimingAnalyzer.check_jitter
  dsimp only
  split_ifs <;> intro x hx
  · simp at hx
  · rw [List.mem_singleton.mp hx]
    rfl
  · simp at hx
  · simp at hx

theorem on_frame_satOK {φ : Type} (s : TimingAnalyzer φ) (arb_id : Int)
    (now : ℚ) (h : satSuppressionOK s.events) :
    satSuppressionOK (s.on_frame arb_id now).events := by
  have hsat : satSuppressionOK (s.events ++
      (if s.config.enable_saturation_detection then
        TimingAnalyzer.check_saturation
          { s with window_frames := refreshWindow s now } now
      else [])) := by
    split_ifs with henable
    · exact satOK_append_check_saturation s.events _ now h rfl
    · exact satOK_append s.events [] h (by intro e he; simp at he)
  unfold TimingAnalyzer.on_frame
  cases hlt : s.last_times arb_id with
  | none => exact hsat
  | some tprev =>
    dsimp only
    apply satOK_append
    · apply satOK_append
      · exact hsat
      · cases hexp : s.expectations arb_id with
        | none => intro x hx; simp at hx
        | some expectation =>
          dsimp only
          intro x hx
          by_cases hdl : s.config.enable_deadline_detection = true
          · rw [if_pos hdl] at hx
            exact check_deadline_no_sat arb_id ((now - tprev) * 1000)
              expectation now x hx
          · rw [if_neg hdl] at hx
            simp at hx
    · cases hexp : s.expectations arb_id with
      | none => intro x hx; simp at hx
      | some expectation =>
        dsimp only
        intro x hx
        by_cases hjd : s.config.enable_jitter_detection = true
        · rw [if_pos hjd] at hx
          exact check_jitter_no_sat _ arb_id expectation now x hx
        · rw [if_neg hjd] at hx
          simp at hx

/-- C6 (amended): the BusSaturation suppression window only inspects the 10
most recently logged events, so the one-per-1.0-time-unit guarantee holds in
this form: in the event log of any analyzer run, two BusSaturation events
whose timestamps differ by less than 1.0 are always separated by more than 10
intervening events of any kind; with 10 or more other events in between, a
second BusSaturation may be emitted within the same 1.0 window. -/
theorem C6_saturation_suppression_last_ten_events {φ : Type}
    (s : TimingAnalyzer φ) (trace : List (Int × ℚ))
    (h : satSuppressionOK s.events) :
    satSuppressionOK (analyzerRun s trace).events := by
  induction trace generalizing s with
  | nil => exact h
  | cons p rest ih =>
    cases p with
    | mk i t => exact ih (s.on_frame i t) (on_frame_satOK s i t h)

/-- Analyzer with a low saturation threshold and a 1 ms deadline expectation
for id 5, used to exercise sustained overload. -/
def demoAnalyzerC6 : TimingAnalyzer Unit :=
  { config := { bus_saturation_threshold := 1 / 2, window_size_seconds := 1 }
    expectations := fun i =>
      if i = 5 then some { arbitration_id := 5, period_ms := 1 } else none }

/-- Twelve frames of id 5, 10 ms apart: every frame saturates the window and
every frame after the first misses the 1 ms deadline. -/
def demoTraceC6 : List (Int × ℚ) :=
  (List.range 12).map (fun k => ((5 : Int), (k : ℚ) / 100))

set_option maxRecDepth 8000 in
/-- C6 counterexample: under sustained overload with a missed-deadline storm,
the analyzer emits two BusSaturation events at timestamps 0 and 0.11 — less
than 1.0 apart — because the ten MissedDeadline events logged in between push
the first BusSaturation event out of the events[-10:] suppression window.
This refutes the claim that at most one BusSaturation event is emitted per
1.0-time-unit window regardless of how many other events are emitted in
between. -/
theorem C6_counterexample_two_saturations_within_one_window :
    ((analyzerRun demoAnalyzerC6 demoTraceC6).events.filter
        (fun e => e.isSaturation)).map AnalysisEvent.timestamp =
      [0, 11 / 100] ∧
    (11 / 100 : ℚ) - 0 < 1 := by
  constructor
  · decide
  · decide

/-- C6 witness: the amended suppression shape at the concrete overload run
(whose two BusSaturation events sit 12 positions apart). -/
theorem C6_saturation_witness :
    satSuppressionOK (analyzerRun demoAnalyzerC6 demoTraceC6).events :=
  C6_saturation_suppression_last_ten_events demoAnalyzerC6 demoTraceC6
    (by intro i j hi hj hij hsi hsj hts; simp [demoAnalyzerC6] at hi)

end VirtualBus
